import Mathlib

/-!
# projectsyncer: the SSH git gateway (cmd/psy-serve and cmd/prey-serve)

A shallow embedding of the channel multiplexer and the per-channel request
loop of `Client.handleChannels`, for both programs of the repository.

* Every call the handler makes on the channel, the request, the wait group or
  the delegate process is recorded as an `Event`, in program order.
* The collaborators that the environment decides are inputs of the model: the
  result of `shlex.Split` on the command line, the result of `cmd.Run()`,
  of `newChannel.Accept()` and of `channel.Close()`.
* A Go run-time panic is the flow `Flow.fault`.
* `filepath.Join` is the Unix implementation of the Go standard library.
-/

namespace ProjectSyncer

/-! ## Data model -/

/-- Streams an `exec.Cmd` field can be bound to. -/
inductive Stream where
  /-- The accepted `ssh.Channel`. -/
  | channel
  /-- The server's own `os.Stderr`. -/
  | osStderr
  /-- The field was left unset. -/
  | unset
  deriving DecidableEq, Repr

/-- The fields of `exec.Cmd` that the handlers set. `args` is `cmd.Args`, so
its head is the command name; `dir = ""` is the unset `cmd.Dir`; `env = none`
is the nil `cmd.Env` (inherit), `env = some []` the empty environment. -/
structure Cmd where
  name : String
  args : List String
  dir : String
  env : Option (List String)
  stdin : Stream
  stdout : Stream
  stderr : Stream
  deriving DecidableEq, Repr

/-- Rejection reasons of `ssh.NewChannel.Reject` that the program uses. -/
inductive RejectionReason where
  | UnknownChannelType
  deriving DecidableEq, Repr

/-- One observable call made by `handleChannels`. A `reply` names the request
by its position in the channel's request stream. -/
inductive Event where
  /-- The call `wg.Add(n)`. -/
  | wgAdd (n : Nat)
  /-- The call `wg.Done()`. -/
  | wgDone
  /-- The call `newChannel.Reject(reason, message)`. -/
  | reject (reason : RejectionReason) (message : String)
  /-- The call `newChannel.Accept()`, which succeeded. -/
  | accept
  /-- The call `newChannel.Accept()`, which failed. -/
  | acceptFailed
  /-- The call `req.Reply(ok, nil)` on request number `req`. -/
  | reply (req : Nat) (ok : Bool)
  /-- The call `channel.Stderr().Write(data)`. -/
  | stderrWrite (data : String)
  /-- A line given to the server's logger. -/
  | log (line : String)
  /-- The call `cmd.Run()`; `ok` tells whether it returned a nil error. -/
  | run (cmd : Cmd) (ok : Bool)
  /-- The call `channel.SendRequest(name, wantReply, payload)`. -/
  | sendRequest (name : String) (wantReply : Bool) (payload : List UInt8)
  /-- The call `channel.Close()`. -/
  | close
  deriving DecidableEq, Repr

/-- An `ssh.Request`: its `Type`, `WantReply` and `Payload`. -/
structure Request where
  type : String
  wantReply : Bool
  payload : List UInt8
  deriving DecidableEq, Repr

/-- How one iteration of `for req := range requests` ends: `continue`,
`return`, or a run-time panic. -/
inductive Flow where
  | next
  | ret
  | fault
  deriving DecidableEq, Repr

/-- The effect of one iteration of the request loop: the calls made, how the
iteration ended, and the value of the local `cmd` if it was constructed. -/
structure Step where
  events : List Event
  flow : Flow
  cmd : Option Cmd
  deriving DecidableEq, Repr

/-- The result of `shlex.Split`: the tokens, or `none` for a non-nil error
(the handlers only test the error against nil). -/
abbrev SplitResult := Option (List String)

/-- The collaborator `fun b => shlex.Split(string(b))`. -/
abbrev Splitter := List UInt8 → SplitResult

/-- The Go slice expression `b[n:]`: it panics (`none`) when `n > len(b)`. -/
def sliceFrom (b : List UInt8) (n : Nat) : Option (List UInt8) :=
  if n ≤ b.length then some (b.drop n) else none

/-- The package-level `allowed` map, as the list of its keys. -/
def allowed : List String :=
  ["git-upload-pack", "git-upload-archive", "git-receive-pack"]

/-- The formatting of an error value by the verb `%s`; `none` is the nil
error. -/
def fmtErr : Option String → String
  | none => "%!s(<nil>)"
  | some e => e

/-! ## The Go standard library: `path/filepath` on Unix -/

/-- The function `os.IsPathSeparator` on Unix. -/
def IsPathSeparator (c : Char) : Bool := c == '/'

/-- Whether a path element ends here: the index is `n`, or the byte there is a
separator (`r+1 == n || os.IsPathSeparator(path[r+1])`). -/
def atElemEnd : List Char → Bool
  | [] => true
  | c :: _ => IsPathSeparator c

/-- The backtracking of `Clean` at a `..` element, on the reversed buffer:
`out.w--; for out.w > dotdot && !os.IsPathSeparator(out.index(out.w)) { out.w-- }`.
The byte `out.index(out.w)` read after a decrement is the byte just dropped. -/
def backtrack (dotdot : Nat) : List Char → List Char
  | [] => []
  | c :: out =>
    if out.length > dotdot && !IsPathSeparator c then backtrack dotdot out else out

/-- The main loop `for r < n` of `filepath.Clean`. The unread part of the path
is the list; `out` is the written buffer in reverse, so `out.w` is
`out.length`. Every iteration reads at least one byte, so the length of the
path is enough fuel (`cleanLoop_fuel`). -/
def cleanLoop (rooted : Bool) : Nat → List Char → List Char → Nat → List Char
  | 0, _, out, _ => out
  | _ + 1, [], out, _ => out
  | fuel + 1, c :: rest, out, dotdot =>
    if IsPathSeparator c then
      -- empty path element
      cleanLoop rooted fuel rest out dotdot
    else if c == '.' && atElemEnd rest then
      -- . element
      cleanLoop rooted fuel rest out dotdot
    else if c == '.' && rest.head? == some '.' && atElemEnd rest.tail then
      -- .. element: remove to last separator
      if out.length > dotdot then
        cleanLoop rooted fuel rest.tail (backtrack dotdot out) dotdot
      else if !rooted then
        let out1 := if out.length > 0 then '/' :: out else out
        let out2 := '.' :: '.' :: out1
        cleanLoop rooted fuel rest.tail out2 out2.length
      else
        cleanLoop rooted fuel rest.tail out dotdot
    else
      -- real path element: add slash if needed, then copy the element
      let out1 :=
        if (rooted && out.length != 1) || (!rooted && out.length != 0) then '/' :: out
        else out
      let elem := (c :: rest).takeWhile (fun x => !IsPathSeparator x)
      let rest1 := (c :: rest).dropWhile (fun x => !IsPathSeparator x)
      cleanLoop rooted fuel rest1 (elem.reverse ++ out1) dotdot

/-- The function `filepath.Clean` on Unix (no volume name, `FromSlash` is the
identity). -/
def Clean (path : String) : String :=
  match path.data with
  | [] => path ++ "."
  | c :: rest =>
    let rooted := IsPathSeparator c
    let out :=
      if rooted then cleanLoop rooted rest.length rest ['/'] 1
      else cleanLoop rooted (c :: rest).length (c :: rest) [] 0
    -- Turn empty string into "."
    let out := if out.length == 0 then ['.'] else out
    String.mk out.reverse

/-- The function `filepath.Join` on Unix: the elements from the first
non-empty one on, joined by the separator, and cleaned. -/
def Join : List String → String
  | [] => ""
  | e :: rest =>
    if e != "" then Clean (String.intercalate "/" (e :: rest)) else Join rest

/-- The function `strings.Join(elems, "/")` on lists of bytes. -/
def joinElems : List (List Char) → List Char
  | [] => []
  | [e] => e
  | e :: es => e ++ '/' :: joinElems es

/-- An ordinary path element: not empty, without a separator, and neither `.`
nor `..`. -/
def isOrdinaryElem (e : List Char) : Bool :=
  !e.isEmpty && e.all (fun c => !IsPathSeparator c) && e != ['.'] && e != ['.', '.']

/-- The repository root that `main` of both programs passes to `NewApp`. -/
def configuredRepoPath : String := "./repositories"

/-! ## The library `github.com/google/shlex`

The handlers are stated over an arbitrary `Splitter`. The tokenizer below is
the instance used on concrete command lines. -/

/-- The states of the tokenizer of `shlex`. -/
inductive LexState where
  | start
  | inWord
  | escaping
  | escapingQuoted
  | quotingEscaping
  | quoting
  | comment
  deriving DecidableEq, Repr

/-- The rune class `spaceRuneClass`: the runes of `" \t\r\n"`. -/
def isSpaceRune (c : Char) : Bool := c == ' ' || c == '\t' || c == '\r' || c == '\n'

/-- The loop of `shlex.Split` over `Lexer.Next` and `Tokenizer.scanStream`, as
one pass over the runes: `value` is the token being read (in reverse), `acc`
the words returned so far (in reverse). Comment tokens are skipped. -/
def scanStream : LexState → List Char → List String → List Char → SplitResult
  | .start, _, acc, [] => some acc.reverse
  | .inWord, value, acc, [] => some (String.mk value.reverse :: acc).reverse
  -- "EOF found after escape character"
  | .escaping, _, _, [] => none
  | .escapingQuoted, _, _, [] => none
  -- "EOF found when expecting closing quote"
  | .quotingEscaping, _, _, [] => none
  | .quoting, _, _, [] => none
  | .comment, _, acc, [] => some acc.reverse
  | .start, _, acc, c :: cs =>
    if isSpaceRune c then scanStream .start [] acc cs
    else if c == '"' then scanStream .quotingEscaping [] acc cs
    else if c == '\'' then scanStream .quoting [] acc cs
    else if c == '\\' then scanStream .escaping [] acc cs
    else if c == '#' then scanStream .comment [] acc cs
    else scanStream .inWord [c] acc cs
  | .inWord, value, acc, c :: cs =>
    if isSpaceRune c then scanStream .start [] (String.mk value.reverse :: acc) cs
    else if c == '"' then scanStream .quotingEscaping value acc cs
    else if c == '\'' then scanStream .quoting value acc cs
    else if c == '\\' then scanStream .escaping value acc cs
    else scanStream .inWord (c :: value) acc cs
  | .escaping, value, acc, c :: cs => scanStream .inWord (c :: value) acc cs
  | .escapingQuoted, value, acc, c :: cs => scanStream .quotingEscaping (c :: value) acc cs
  | .quotingEscaping, value, acc, c :: cs =>
    if c == '"' then scanStream .inWord value acc cs
    else if c == '\\' then scanStream .escapingQuoted value acc cs
    else scanStream .quotingEscaping (c :: value) acc cs
  | .quoting, value, acc, c :: cs =>
    if c == '\'' then scanStream .inWord value acc cs
    else scanStream .quoting (c :: value) acc cs
  | .comment, value, acc, c :: cs =>
    if c == '\n' then scanStream .start [] acc cs
    else scanStream .comment (c :: value) acc cs

/-- The collaborator `shlex.Split(string(b))` for an ASCII payload: every byte
is read as the character of that code. -/
def shlexSplit : Splitter :=
  fun b => scanStream .start [] [] (b.map (fun x => Char.ofNat x.toNat))

/-- The payload of an `exec` request as an SSH client builds it for an ASCII
command line: the length of the line as a 4-byte big-endian number, then its
bytes. -/
def execPayload (line : String) : List UInt8 :=
  let b := line.data.map (fun c => UInt8.ofNat c.toNat)
  [UInt8.ofNat (b.length / 16777216), UInt8.ofNat (b.length / 65536),
    UInt8.ofNat (b.length / 256), UInt8.ofNat b.length] ++ b

/-! ## The request loop and the channel worker -/

/-- The outcome of `for req := range requests`: the calls made, how the loop
was left (`Flow.next`: the request stream was closed; `Flow.ret`: an
iteration returned; `Flow.fault`: an iteration panicked), and the number of
requests taken from the stream. -/
structure LoopResult where
  events : List Event
  flow : Flow
  handled : Nat
  deriving DecidableEq, Repr

/-- The statement `for req := range requests { body }`, the requests being
numbered from `i`: an iteration that ends in `continue` is followed by the
next request, any other ends the loop. -/
def rangeRequests (body : Nat → Request → Step) : Nat → List Request → LoopResult
  | _, [] => ⟨[], .next, 0⟩
  | i, req :: rest =>
    let s := body i req
    match s.flow with
    | .next =>
      let r := rangeRequests body (i + 1) rest
      ⟨s.events ++ r.events, r.flow, r.handled + 1⟩
    | f => ⟨s.events, f, 1⟩

/-- An `ssh.NewChannel` together with what the environment does on it: the
result of `Accept()`, the requests the client then sends, the error of
`cmd.Run()` should request number `i` reach it, and the error of
`channel.Close()`. -/
structure NewChannel where
  channelType : String
  acceptErr : Option String
  requests : List Request
  runErr : Nat → Option String
  closeErr : Option String

/-- The outcome of the goroutine started for one channel: the calls it made,
and whether it ended in a panic (which ends the server process). -/
structure WorkerResult where
  events : List Event
  crashed : Bool
  deriving DecidableEq, Repr

/-- What `handleChannels` does for one incoming channel: the calls of the
`range channels` loop itself before the goroutine starts, and the goroutine. -/
structure ChannelTrace where
  parent : List Event
  worker : WorkerResult
  deriving DecidableEq, Repr

/-- The sum of the arguments of the `wg.Add` calls in a trace. -/
def wgAdded : List Event → Nat
  | [] => 0
  | .wgAdd n :: es => n + wgAdded es
  | _ :: es => wgAdded es

/-- Whether the event is a call of `cmd.Run()`. -/
def Event.isRun : Event → Bool
  | .run _ _ => true
  | _ => false

/-- Whether the event is a call of `cmd.Run()` that returned a nil error. -/
def Event.isRunOk : Event → Bool
  | .run _ ok => ok
  | _ => false

/-- Whether the event is a call of `Reply` on request number `i`. -/
def Event.isReplyTo (i : Nat) : Event → Bool
  | .reply j _ => j == i
  | _ => false

/-- Whether the event is a call of `Reply(true, nil)`. -/
def Event.isSuccessReply : Event → Bool
  | .reply _ ok => ok
  | _ => false

/-! ## cmd/psy-serve -/

namespace Psy

/-- The body of the request loop of `cmd/psy-serve/main.go` (lines 164-227)
for request number `i`; `repoPath` is `client.app.repoPath` and `runErr` the
error `cmd.Run()` returns if it is called. -/
def handleRequest (split : Splitter) (repoPath : String) (runErr : Option String)
    (i : Nat) (req : Request) : Step :=
  if req.type = "exec" then
    match sliceFrom req.payload 4 with
    | none => ⟨[], .fault, none⟩
    | some line =>
      match split line with
      | none => ⟨[.reply i false], .next, none⟩
      | some argv =>
        if argv.length < 2 then ⟨[.reply i false], .next, none⟩
        else
          let cmdName := argv.getD 0 ""
          let repoId := argv.getD 1 ""
          if !allowed.contains cmdName then
            ⟨[.log ("Client trying to run '" ++ cmdName ++ "', which is not a supported command"),
              .stderrWrite ("'" ++ cmdName ++ "' is not a supported command\n"),
              .reply i false], .next, none⟩
          else
            let repoPath := Join [repoPath, repoId]
            let cmd : Cmd :=
              { name := cmdName, args := [cmdName, repoPath], dir := "", env := some [],
                stdin := .channel, stdout := .channel, stderr := .osStderr }
            match runErr with
            | some err =>
              ⟨[.reply i true, .log repoId, .run cmd false,
                .stderrWrite
                  "Internal server error. Try again later. Administrators should read the logs.\n",
                .log ("Failed to run '" ++ cmdName ++ "': " ++ err),
                .reply i false], .next, some cmd⟩
            | none =>
              ⟨[.reply i true, .log repoId, .run cmd true,
                .sendRequest "exit-status" false [0, 0, 0, 0]], .ret, some cmd⟩
  else if req.type = "shell" then
    ⟨[.stderrWrite "You are trying to open a shell on a Git server, which is not supported.\n",
      .reply i false,
      .log "Client requested interactive session, which is not supported.",
      .sendRequest "exit-status" false [0, 0, 0, 0]], .ret, none⟩
  else
    ⟨[.stderrWrite "Unsupported protocol feature. Exiting.\n",
      .reply i false,
      .log ("Client send an unknown SSH request type: " ++ req.type)], .ret, none⟩

/-- The loop `for req := range requests` of `cmd/psy-serve/main.go`, seen
when `i` requests have been taken from the stream before. -/
def requestLoopFrom (split : Splitter) (repoPath : String) (runErr : Nat → Option String)
    (i : Nat) (requests : List Request) : LoopResult :=
  rangeRequests (fun j req => handleRequest split repoPath (runErr j) j req) i requests

/-- The loop `for req := range requests` of `cmd/psy-serve/main.go`. -/
def requestLoop (split : Splitter) (repoPath : String) (runErr : Nat → Option String)
    (requests : List Request) : LoopResult :=
  requestLoopFrom split repoPath runErr 0 requests

/-- The goroutine `go func() { ... }()` of `cmd/psy-serve/main.go` (lines
141-231). The deferred calls run when the function returns and when it
panics. -/
def worker (split : Splitter) (repoPath : String) (ch : NewChannel) : WorkerResult :=
  if ch.channelType != "session" then
    ⟨[.reject .UnknownChannelType "unsupported channel type", .wgDone], false⟩
  else
    match ch.acceptErr with
    | some err => ⟨[.acceptFailed, .log ("Could not accept channel: " ++ err), .wgDone], false⟩
    | none =>
      let r := requestLoop split repoPath ch.runErr ch.requests
      let closing : List Event :=
        match ch.closeErr with
        | some err => [.close, .log ("Failed to close channel: " ++ err)]
        | none => [.close]
      ⟨[.accept] ++ r.events ++ closing ++ [.wgDone], r.flow == .fault⟩

/-- The loop `for newChannel := range channels` of `handleChannels` in
`cmd/psy-serve/main.go`: for every channel `wg.Add(1)`, then the goroutine. -/
def handleChannels (split : Splitter) (repoPath : String) (channels : List NewChannel) :
    List ChannelTrace :=
  channels.map (fun ch => ⟨[.wgAdd 1], worker split repoPath ch⟩)

end Psy

/-! ## cmd/prey-serve -/

namespace Prey

/-- The body of the request loop of `cmd/prey-serve/main.go` (lines 149-266)
for request number `i`. The `exec.Cmd` is built and configured, and the
function returns without a call of `cmd.Run()` or `cmd.Start()`: these calls
are commented out in the source (lines 187-250). -/
def handleRequest (split : Splitter) (repoPath : String) (i : Nat) (req : Request) : Step :=
  if req.type = "exec" then
    match sliceFrom req.payload 4 with
    | none => ⟨[], .fault, none⟩
    | some line =>
      match split line with
      | none => ⟨[.reply i false], .next, none⟩
      | some argv =>
        if argv.length < 2 then ⟨[.reply i false], .next, none⟩
        else
          let cmdName := argv.getD 0 ""
          let repoId := argv.getD 1 ""
          if !allowed.contains cmdName then
            ⟨[.log ("Client trying to run '" ++ cmdName ++ "', which is not a supported command"),
              .stderrWrite ("'" ++ cmdName ++ "' is not a supported command\n"),
              .reply i false], .next, none⟩
          else
            let repoPath := Join [repoPath, repoId]
            let cmd : Cmd :=
              { name := cmdName, args := [cmdName, "."], dir := repoPath, env := some [],
                stdin := .channel, stdout := .channel, stderr := .osStderr }
            ⟨[.reply i true, .log "REPLIED"], .ret, some cmd⟩
  else if req.type = "shell" then
    ⟨[.stderrWrite "You are trying to open a shell on a Git server, which is not supported.\n",
      .reply i false,
      .log "Client requested interactive session, which is not supported."], .ret, none⟩
  else
    ⟨[.stderrWrite "Unsupported protocol feature. Exiting.\n",
      .reply i false,
      .log ("Client send an unknown SSH request type: " ++ req.type)], .ret, none⟩

/-- The loop `for req := range requests` of `cmd/prey-serve/main.go`, seen
when `i` requests have been taken from the stream before. -/
def requestLoopFrom (split : Splitter) (repoPath : String) (i : Nat)
    (requests : List Request) : LoopResult :=
  rangeRequests (fun j req => handleRequest split repoPath j req) i requests

/-- The loop `for req := range requests` of `cmd/prey-serve/main.go`. -/
def requestLoop (split : Splitter) (repoPath : String) (requests : List Request) :
    LoopResult :=
  requestLoopFrom split repoPath 0 requests

/-- The goroutine `go func() { ... }()` of `cmd/prey-serve/main.go` (lines
131-270). -/
def worker (split : Splitter) (repoPath : String) (ch : NewChannel) : WorkerResult :=
  if ch.channelType != "session" then
    ⟨[.reject .UnknownChannelType "unsupported channel type", .wgDone], false⟩
  else
    match ch.acceptErr with
    | some err => ⟨[.acceptFailed, .log ("Could not accept channel: " ++ err), .wgDone], false⟩
    | none =>
      let r := requestLoop split repoPath ch.requests
      ⟨[.accept] ++ r.events ++ [.close, .log ("CLOSING CHANNEL: " ++ fmtErr ch.closeErr), .wgDone],
        r.flow == .fault⟩

/-- The loop `for newChannel := range channels` of `handleChannels` in
`cmd/prey-serve/main.go`: for every channel `wg.Add(1)`, then the goroutine. -/
def handleChannels (split : Splitter) (repoPath : String) (channels : List NewChannel) :
    List ChannelTrace :=
  channels.map (fun ch => ⟨[.wgAdd 1], worker split repoPath ch⟩)

end Prey

/-! ## The request loop: general facts -/

theorem rangeRequests_cons_next (body : Nat → Request → Step) (i : Nat) (req : Request)
    (rest : List Request) (h : (body i req).flow = .next) :
    rangeRequests body i (req :: rest) =
      ⟨(body i req).events ++ (rangeRequests body (i + 1) rest).events,
        (rangeRequests body (i + 1) rest).flow,
        (rangeRequests body (i + 1) rest).handled + 1⟩ := by
  simp [rangeRequests, h]

theorem rangeRequests_cons_stop (body : Nat → Request → Step) (i : Nat) (req : Request)
    (rest : List Request) (h : (body i req).flow ≠ .next) :
    rangeRequests body i (req :: rest) = ⟨(body i req).events, (body i req).flow, 1⟩ := by
  unfold rangeRequests
  cases hf : (body i req).flow with
  | next => exact absurd hf h
  | ret => simp [hf]
  | fault => simp [hf]

/-- Once an iteration does not end in `continue`, the requests behind it are
never read: the loop is the loop of the requests up to that one. -/
theorem rangeRequests_append_stop (body : Nat → Request → Step) (pre : List Request) :
    ∀ (i : Nat) (req : Request) (post : List Request),
      (body (i + pre.length) req).flow ≠ .next →
      rangeRequests body i (pre ++ req :: post) = rangeRequests body i (pre ++ [req]) := by
  induction pre with
  | nil =>
    intro i req post h
    simp only [List.length_nil, Nat.add_zero] at h
    simp only [List.nil_append]
    rw [rangeRequests_cons_stop body i req post h, rangeRequests_cons_stop body i req [] h]
  | cons p pre ih =>
    intro i req post h
    have h1 : (body (i + 1 + pre.length) req).flow ≠ .next := by
      have e : i + 1 + pre.length = i + (p :: pre).length := by simp; omega
      rw [e]; exact h
    by_cases hp : (body i p).flow = .next
    · simp only [List.cons_append]
      rw [rangeRequests_cons_next body i p _ hp, rangeRequests_cons_next body i p _ hp,
        ih (i + 1) req post h1]
    · simp only [List.cons_append]
      rw [rangeRequests_cons_stop body i p _ hp, rangeRequests_cons_stop body i p _ hp]

theorem not_allowed_of_ne (name : String)
    (h : name ≠ "git-upload-pack" ∧ name ≠ "git-upload-archive" ∧ name ≠ "git-receive-pack") :
    allowed.contains name = false := by
  obtain ⟨h1, h2, h3⟩ := h
  simp [allowed, h1, h2, h3]

theorem allowed_of_eq (name : String)
    (h : name = "git-upload-pack" ∨ name = "git-upload-archive" ∨ name = "git-receive-pack") :
    allowed.contains name = true := by
  rcases h with h | h | h <;> subst h <;> decide

theorem sliceFrom_of_le (b : List UInt8) (n : Nat) (h : n ≤ b.length) :
    sliceFrom b n = some (b.drop n) := by
  simp [sliceFrom, h]

theorem sliceFrom_of_lt (b : List UInt8) (n : Nat) (h : b.length < n) :
    sliceFrom b n = none := by
  simp [sliceFrom]; omega

/-! ## Rejected requests -/

/-- C1: in psy-serve and in prey-serve, an `exec` request whose command line
splits into at least two tokens, the first of which is none of
`git-upload-pack`, `git-upload-archive`, `git-receive-pack`, is answered by
`Reply(false)`; the line `'<name>' is not a supported command` is the one
write to the error stream of the channel; no `exec.Cmd` is built and
`cmd.Run()` is not called. -/
theorem unsupported_command_rejected (split : Splitter) (repoPath : String)
    (runErr : Option String) (i : Nat) (req : Request) (name repoId : String)
    (more : List String)
    (hType : req.type = "exec") (hLen : 4 ≤ req.payload.length)
    (hSplit : split (req.payload.drop 4) = some (name :: repoId :: more))
    (hName : name ≠ "git-upload-pack" ∧ name ≠ "git-upload-archive" ∧
      name ≠ "git-receive-pack") :
    Psy.handleRequest split repoPath runErr i req =
      ⟨[.log ("Client trying to run '" ++ name ++ "', which is not a supported command"),
        .stderrWrite ("'" ++ name ++ "' is not a supported command\n"),
        .reply i false], .next, none⟩ ∧
    Prey.handleRequest split repoPath i req =
      ⟨[.log ("Client trying to run '" ++ name ++ "', which is not a supported command"),
        .stderrWrite ("'" ++ name ++ "' is not a supported command\n"),
        .reply i false], .next, none⟩ := by
  have hA : name ∉ allowed := by
    have h := not_allowed_of_ne name hName
    simpa using h
  constructor
  · simp [Psy.handleRequest, hType, sliceFrom_of_le _ _ hLen, hSplit, hA]
  · simp [Prey.handleRequest, hType, sliceFrom_of_le _ _ hLen, hSplit, hA]

theorem unsupported_command_rejected_witness :
    Psy.handleRequest shlexSplit "./repositories" none 0
        ⟨"exec", true, execPayload "ls repoA"⟩ =
      ⟨[.log ("Client trying to run '" ++ "ls" ++ "', which is not a supported command"),
        .stderrWrite ("'" ++ "ls" ++ "' is not a supported command\n"),
        .reply 0 false], .next, none⟩ ∧
    Prey.handleRequest shlexSplit "./repositories" 0
        ⟨"exec", true, execPayload "ls repoA"⟩ =
      ⟨[.log ("Client trying to run '" ++ "ls" ++ "', which is not a supported command"),
        .stderrWrite ("'" ++ "ls" ++ "' is not a supported command\n"),
        .reply 0 false], .next, none⟩ :=
  unsupported_command_rejected shlexSplit "./repositories" none 0
    ⟨"exec", true, execPayload "ls repoA"⟩ "ls" "repoA" []
    (by decide) (by decide) (by decide) (by decide)

/-- C2: in psy-serve and in prey-serve, an `exec` request whose command line
fails `shlex.Split` or yields fewer than two tokens is answered by
`Reply(false)` and by nothing else (no write to the error stream, no
`exec.Cmd`, no `cmd.Run()`), and the iteration ends in `continue`: the loop
goes on with the next request of the channel. -/
theorem malformed_command_failed_and_loop_continues (split : Splitter) (repoPath : String)
    (runErr : Nat → Option String) (i : Nat) (req : Request) (rest : List Request)
    (hType : req.type = "exec") (hLen : 4 ≤ req.payload.length)
    (hBad : split (req.payload.drop 4) = none ∨
      ∃ argv, split (req.payload.drop 4) = some argv ∧ argv.length < 2) :
    Psy.handleRequest split repoPath (runErr i) i req = ⟨[.reply i false], .next, none⟩ ∧
    Prey.handleRequest split repoPath i req = ⟨[.reply i false], .next, none⟩ ∧
    Psy.requestLoopFrom split repoPath runErr i (req :: rest) =
      ⟨.reply i false :: (Psy.requestLoopFrom split repoPath runErr (i + 1) rest).events,
        (Psy.requestLoopFrom split repoPath runErr (i + 1) rest).flow,
        (Psy.requestLoopFrom split repoPath runErr (i + 1) rest).handled + 1⟩ ∧
    Prey.requestLoopFrom split repoPath i (req :: rest) =
      ⟨.reply i false :: (Prey.requestLoopFrom split repoPath (i + 1) rest).events,
        (Prey.requestLoopFrom split repoPath (i + 1) rest).flow,
        (Prey.requestLoopFrom split repoPath (i + 1) rest).handled + 1⟩ := by
  have hPsy : Psy.handleRequest split repoPath (runErr i) i req =
      ⟨[.reply i false], .next, none⟩ := by
    rcases hBad with h | ⟨argv, h, hlt⟩
    · simp [Psy.handleRequest, hType, sliceFrom_of_le _ _ hLen, h]
    · simp [Psy.handleRequest, hType, sliceFrom_of_le _ _ hLen, h, hlt]
  have hPrey : Prey.handleRequest split repoPath i req = ⟨[.reply i false], .next, none⟩ := by
    rcases hBad with h | ⟨argv, h, hlt⟩
    · simp [Prey.handleRequest, hType, sliceFrom_of_le _ _ hLen, h]
    · simp [Prey.handleRequest, hType, sliceFrom_of_le _ _ hLen, h, hlt]
  refine ⟨hPsy, hPrey, ?_, ?_⟩
  · unfold Psy.requestLoopFrom
    rw [rangeRequests_cons_next _ i req rest (by simp [hPsy]), hPsy]
    rfl
  · unfold Prey.requestLoopFrom
    rw [rangeRequests_cons_next _ i req rest (by simp [hPrey]), hPrey]
    rfl

theorem malformed_command_failed_and_loop_continues_witness :
    Psy.handleRequest shlexSplit "./repositories" none 0
        ⟨"exec", true, execPayload "git-upload-pack"⟩ = ⟨[.reply 0 false], .next, none⟩ ∧
    Prey.handleRequest shlexSplit "./repositories" 0
        ⟨"exec", true, execPayload "git-upload-pack"⟩ = ⟨[.reply 0 false], .next, none⟩ ∧
    Psy.requestLoopFrom shlexSplit "./repositories" (fun _ => none) 0
        [⟨"exec", true, execPayload "git-upload-pack"⟩,
          ⟨"exec", true, execPayload "git-upload-pack 'unclosed"⟩] =
      ⟨.reply 0 false :: (Psy.requestLoopFrom shlexSplit "./repositories" (fun _ => none) (0 + 1)
          [⟨"exec", true, execPayload "git-upload-pack 'unclosed"⟩]).events,
        (Psy.requestLoopFrom shlexSplit "./repositories" (fun _ => none) (0 + 1)
          [⟨"exec", true, execPayload "git-upload-pack 'unclosed"⟩]).flow,
        (Psy.requestLoopFrom shlexSplit "./repositories" (fun _ => none) (0 + 1)
          [⟨"exec", true, execPayload "git-upload-pack 'unclosed"⟩]).handled + 1⟩ ∧
    Prey.requestLoopFrom shlexSplit "./repositories" 0
        [⟨"exec", true, execPayload "git-upload-pack"⟩,
          ⟨"exec", true, execPayload "git-upload-pack 'unclosed"⟩] =
      ⟨.reply 0 false :: (Prey.requestLoopFrom shlexSplit "./repositories" (0 + 1)
          [⟨"exec", true, execPayload "git-upload-pack 'unclosed"⟩]).events,
        (Prey.requestLoopFrom shlexSplit "./repositories" (0 + 1)
          [⟨"exec", true, execPayload "git-upload-pack 'unclosed"⟩]).flow,
        (Prey.requestLoopFrom shlexSplit "./repositories" (0 + 1)
          [⟨"exec", true, execPayload "git-upload-pack 'unclosed"⟩]).handled + 1⟩ :=
  malformed_command_failed_and_loop_continues shlexSplit "./repositories" (fun _ => none) 0
    ⟨"exec", true, execPayload "git-upload-pack"⟩
    [⟨"exec", true, execPayload "git-upload-pack 'unclosed"⟩]
    (by decide) (by decide) (Or.inr ⟨["git-upload-pack"], by decide, by decide⟩)

/-- C6: in psy-serve and in prey-serve, a request whose type is not `exec`,
whatever its payload, is answered by `Reply(false)`; the one write to the
error stream is the shell advisory for the type `shell` and
`Unsupported protocol feature. Exiting.` for any other type; no `exec.Cmd` is
built and `cmd.Run()` is not called; the iteration returns, so the loop ends
with this request whatever follows it in the stream. -/
theorem non_exec_request_rejected (split : Splitter) (repoPath : String)
    (runErr : Nat → Option String) (i : Nat) (req : Request) (rest : List Request)
    (hType : req.type ≠ "exec") :
    Psy.handleRequest split repoPath (runErr i) i req =
      (if req.type = "shell" then
        ⟨[.stderrWrite
            "You are trying to open a shell on a Git server, which is not supported.\n",
          .reply i false,
          .log "Client requested interactive session, which is not supported.",
          .sendRequest "exit-status" false [0, 0, 0, 0]], .ret, none⟩
      else
        ⟨[.stderrWrite "Unsupported protocol feature. Exiting.\n",
          .reply i false,
          .log ("Client send an unknown SSH request type: " ++ req.type)], .ret, none⟩) ∧
    Prey.handleRequest split repoPath i req =
      (if req.type = "shell" then
        ⟨[.stderrWrite
            "You are trying to open a shell on a Git server, which is not supported.\n",
          .reply i false,
          .log "Client requested interactive session, which is not supported."], .ret, none⟩
      else
        ⟨[.stderrWrite "Unsupported protocol feature. Exiting.\n",
          .reply i false,
          .log ("Client send an unknown SSH request type: " ++ req.type)], .ret, none⟩) ∧
    Psy.requestLoopFrom split repoPath runErr i (req :: rest) =
      ⟨(Psy.handleRequest split repoPath (runErr i) i req).events, .ret, 1⟩ ∧
    Prey.requestLoopFrom split repoPath i (req :: rest) =
      ⟨(Prey.handleRequest split repoPath i req).events, .ret, 1⟩ := by
  have hPsy : (Psy.handleRequest split repoPath (runErr i) i req).flow = .ret := by
    by_cases hs : req.type = "shell" <;> simp [Psy.handleRequest, hType, hs]
  have hPrey : (Prey.handleRequest split repoPath i req).flow = .ret := by
    by_cases hs : req.type = "shell" <;> simp [Prey.handleRequest, hType, hs]
  refine ⟨?_, ?_, ?_, ?_⟩
  · by_cases hs : req.type = "shell" <;> simp [Psy.handleRequest, hType, hs]
  · by_cases hs : req.type = "shell" <;> simp [Prey.handleRequest, hType, hs]
  · unfold Psy.requestLoopFrom
    rw [rangeRequests_cons_stop _ i req rest (by simp [hPsy]), hPsy]
  · unfold Prey.requestLoopFrom
    rw [rangeRequests_cons_stop _ i req rest (by simp [hPrey]), hPrey]

theorem non_exec_request_rejected_witness :
    Psy.handleRequest shlexSplit "./repositories" none 0 ⟨"shell", true, []⟩ =
      ⟨[.stderrWrite
          "You are trying to open a shell on a Git server, which is not supported.\n",
        .reply 0 false,
        .log "Client requested interactive session, which is not supported.",
        .sendRequest "exit-status" false [0, 0, 0, 0]], .ret, none⟩ ∧
    Prey.handleRequest shlexSplit "./repositories" 0 ⟨"shell", true, []⟩ =
      ⟨[.stderrWrite
          "You are trying to open a shell on a Git server, which is not supported.\n",
        .reply 0 false,
        .log "Client requested interactive session, which is not supported."], .ret, none⟩ ∧
    Psy.requestLoopFrom shlexSplit "./repositories" (fun _ => none) 0
        [⟨"shell", true, []⟩, ⟨"exec", true, execPayload "git-upload-pack repoA"⟩] =
      ⟨(Psy.handleRequest shlexSplit "./repositories" none 0 ⟨"shell", true, []⟩).events,
        .ret, 1⟩ ∧
    Prey.requestLoopFrom shlexSplit "./repositories" 0
        [⟨"shell", true, []⟩, ⟨"exec", true, execPayload "git-upload-pack repoA"⟩] =
      ⟨(Prey.handleRequest shlexSplit "./repositories" 0 ⟨"shell", true, []⟩).events,
        .ret, 1⟩ :=
  non_exec_request_rejected shlexSplit "./repositories" (fun _ => none) 0 ⟨"shell", true, []⟩
    [⟨"exec", true, execPayload "git-upload-pack repoA"⟩] (by decide)

/-! ## Counting calls over the request loop -/

theorem rangeRequests_countP_zero (body : Nat → Request → Step) (p : Event → Bool)
    (h : ∀ i req, (body i req).events.countP p = 0) (requests : List Request) :
    ∀ i, (rangeRequests body i requests).events.countP p = 0 := by
  induction requests with
  | nil => intro i; simp [rangeRequests]
  | cons req rest ih =>
    intro i
    by_cases hf : (body i req).flow = .next
    · rw [rangeRequests_cons_next body i req rest hf]
      simp [List.countP_append, h i req, ih (i + 1)]
    · rw [rangeRequests_cons_stop body i req rest hf]
      simp [h i req]

theorem rangeRequests_countP_le_one (body : Nat → Request → Step) (p : Event → Bool)
    (h1 : ∀ i req, (body i req).events.countP p ≤ 1)
    (h2 : ∀ i req, (body i req).flow = .next → (body i req).events.countP p = 0)
    (requests : List Request) :
    ∀ i, (rangeRequests body i requests).events.countP p ≤ 1 := by
  induction requests with
  | nil => intro i; simp [rangeRequests]
  | cons req rest ih =>
    intro i
    by_cases hf : (body i req).flow = .next
    · rw [rangeRequests_cons_next body i req rest hf]
      simp only [List.countP_append, h2 i req hf, Nat.zero_add]
      exact ih (i + 1)
    · rw [rangeRequests_cons_stop body i req rest hf]
      exact h1 i req

theorem rangeRequests_countP_eq (body : Nat → Request → Step) (p q : Event → Bool)
    (h : ∀ i req, (body i req).events.countP p = (body i req).events.countP q)
    (requests : List Request) :
    ∀ i, (rangeRequests body i requests).events.countP p =
      (rangeRequests body i requests).events.countP q := by
  induction requests with
  | nil => intro i; simp [rangeRequests]
  | cons req rest ih =>
    intro i
    by_cases hf : (body i req).flow = .next
    · rw [rangeRequests_cons_next body i req rest hf]
      simp only [List.countP_append, h i req, ih (i + 1)]
    · rw [rangeRequests_cons_stop body i req rest hf]
      exact h i req

theorem rangeRequests_handled_le (body : Nat → Request → Step) (requests : List Request) :
    ∀ i, (rangeRequests body i requests).handled ≤ requests.length := by
  induction requests with
  | nil => intro i; simp [rangeRequests]
  | cons req rest ih =>
    intro i
    by_cases hf : (body i req).flow = .next
    · rw [rangeRequests_cons_next body i req rest hf]
      have := ih (i + 1)
      simp only [List.length_cons]
      omega
    · rw [rangeRequests_cons_stop body i req rest hf]
      simp

/-- The calls of one iteration of psy-serve, counted: as many `Reply(true)` as
`cmd.Run()`, at most one `Run` without error, and none in an iteration that
ends in `continue`. -/
theorem psy_step_counts (split : Splitter) (repoPath : String) (runErr : Option String)
    (i : Nat) (req : Request) :
    (Psy.handleRequest split repoPath runErr i req).events.countP Event.isSuccessReply =
      (Psy.handleRequest split repoPath runErr i req).events.countP Event.isRun ∧
    (Psy.handleRequest split repoPath runErr i req).events.countP Event.isRunOk ≤ 1 ∧
    ((Psy.handleRequest split repoPath runErr i req).flow = .next →
      (Psy.handleRequest split repoPath runErr i req).events.countP Event.isRunOk = 0) := by
  unfold Psy.handleRequest
  repeat' split
  all_goals
    (simp [Event.isSuccessReply, Event.isRun, Event.isRunOk] <;> split_ifs <;>
      simp [Event.isSuccessReply, Event.isRun, Event.isRunOk])

/-- The calls of one iteration of prey-serve, counted: no `cmd.Run()`, at most
one `Reply(true)`, and none in an iteration that ends in `continue`. -/
theorem prey_step_counts (split : Splitter) (repoPath : String) (i : Nat) (req : Request) :
    (Prey.handleRequest split repoPath i req).events.countP Event.isRun = 0 ∧
    (Prey.handleRequest split repoPath i req).events.countP Event.isSuccessReply ≤ 1 ∧
    ((Prey.handleRequest split repoPath i req).flow = .next →
      (Prey.handleRequest split repoPath i req).events.countP Event.isSuccessReply = 0) := by
  unfold Prey.handleRequest
  repeat' split
  all_goals
    (simp [Event.isSuccessReply, Event.isRun] <;> split_ifs <;>
      simp [Event.isSuccessReply, Event.isRun])

theorem psy_flow_of_non_exec (split : Splitter) (repoPath : String) (runErr : Option String)
    (i : Nat) (req : Request) (h : req.type ≠ "exec") :
    (Psy.handleRequest split repoPath runErr i req).flow = .ret := by
  by_cases hs : req.type = "shell" <;> simp [Psy.handleRequest, h, hs]

theorem prey_flow_of_non_exec (split : Splitter) (repoPath : String) (i : Nat) (req : Request)
    (h : req.type ≠ "exec") :
    (Prey.handleRequest split repoPath i req).flow = .ret := by
  by_cases hs : req.type = "shell" <;> simp [Prey.handleRequest, h, hs]

theorem psy_flow_of_dispatch (split : Splitter) (repoPath : String) (i : Nat) (req : Request)
    (name repoId : String) (more : List String)
    (hType : req.type = "exec") (hLen : 4 ≤ req.payload.length)
    (hSplit : split (req.payload.drop 4) = some (name :: repoId :: more))
    (hName : name ∈ allowed) :
    (Psy.handleRequest split repoPath none i req).flow = .ret := by
  have hl : ¬ (more.length + 1 + 1 < 2) := by omega
  simp [Psy.handleRequest, hType, sliceFrom_of_le _ _ hLen, hSplit, hName, hl]

theorem prey_flow_of_dispatch (split : Splitter) (repoPath : String) (i : Nat) (req : Request)
    (name repoId : String) (more : List String)
    (hType : req.type = "exec") (hLen : 4 ≤ req.payload.length)
    (hSplit : split (req.payload.drop 4) = some (name :: repoId :: more))
    (hName : name ∈ allowed) :
    (Prey.handleRequest split repoPath i req).flow = .ret := by
  have hl : ¬ (more.length + 1 + 1 < 2) := by omega
  simp [Prey.handleRequest, hType, sliceFrom_of_le _ _ hLen, hSplit, hName, hl]

theorem rangeRequests_stop_handled (body : Nat → Request → Step) (pre : List Request)
    (i : Nat) (req : Request) (post : List Request)
    (h : (body (i + pre.length) req).flow ≠ .next) :
    rangeRequests body i (pre ++ req :: post) = rangeRequests body i (pre ++ [req]) ∧
    (rangeRequests body i (pre ++ req :: post)).handled ≤ pre.length + 1 := by
  have e := rangeRequests_append_stop body pre i req post h
  refine ⟨e, ?_⟩
  rw [e]
  have := rangeRequests_handled_le body (pre ++ [req]) i
  simpa using this

/-! ## The channel is single-shot only for requests that end the loop -/

/-- C5, as stated, fails in psy-serve: when `cmd.Run()` fails for a first
`exec` request, the iteration ends in `continue`, and a second `exec` request
on the same channel is dispatched too: two `Reply(true)`, two delegates. -/
theorem psy_second_exec_serviced_after_failed_run :
    (Psy.requestLoop shlexSplit "./repositories"
        (fun i => if i = 0 then some "exit status 128" else none)
        [⟨"exec", true, execPayload "git-upload-pack repoA"⟩,
          ⟨"exec", true, execPayload "git-upload-pack repoA"⟩]).events.countP
        Event.isSuccessReply = 2 ∧
    (Psy.requestLoop shlexSplit "./repositories"
        (fun i => if i = 0 then some "exit status 128" else none)
        [⟨"exec", true, execPayload "git-upload-pack repoA"⟩,
          ⟨"exec", true, execPayload "git-upload-pack repoA"⟩]).events.countP
        Event.isRun = 2 ∧
    (Psy.requestLoop shlexSplit "./repositories"
        (fun i => if i = 0 then some "exit status 128" else none)
        [⟨"exec", true, execPayload "git-upload-pack repoA"⟩,
          ⟨"exec", true, execPayload "git-upload-pack repoA"⟩]).handled = 2 := by
  decide

/-- C5, amended: for every sequence of requests on a channel and every outcome
of the delegate, prey-serve makes at most one `Reply(true)` and at most one
`cmd.Run()`; psy-serve makes as many `Reply(true)` as `cmd.Run()` and at most
one `Run` ends without error; and in both, once a request of a type other than
`exec` has been handled, or an `exec` request has passed validation and been
dispatched (in psy-serve: and its delegate ended without error), no later
request of that channel is read. -/
theorem channel_single_shot (split : Splitter) (repoPath : String)
    (runErr : Nat → Option String) (requests : List Request) :
    (Prey.requestLoop split repoPath requests).events.countP Event.isSuccessReply ≤ 1 ∧
    (Prey.requestLoop split repoPath requests).events.countP Event.isRun ≤ 1 ∧
    (Psy.requestLoop split repoPath runErr requests).events.countP Event.isSuccessReply =
      (Psy.requestLoop split repoPath runErr requests).events.countP Event.isRun ∧
    (Psy.requestLoop split repoPath runErr requests).events.countP Event.isRunOk ≤ 1 ∧
    (∀ (pre post : List Request) (req : Request), requests = pre ++ req :: post →
      (req.type ≠ "exec" ∨
        (req.type = "exec" ∧ 4 ≤ req.payload.length ∧
          ∃ name repoId more, split (req.payload.drop 4) = some (name :: repoId :: more) ∧
            name ∈ allowed)) →
      Prey.requestLoop split repoPath requests = Prey.requestLoop split repoPath (pre ++ [req]) ∧
      (Prey.requestLoop split repoPath requests).handled ≤ pre.length + 1) ∧
    (∀ (pre post : List Request) (req : Request), requests = pre ++ req :: post →
      (req.type ≠ "exec" ∨
        (req.type = "exec" ∧ 4 ≤ req.payload.length ∧ runErr pre.length = none ∧
          ∃ name repoId more, split (req.payload.drop 4) = some (name :: repoId :: more) ∧
            name ∈ allowed)) →
      Psy.requestLoop split repoPath runErr requests =
        Psy.requestLoop split repoPath runErr (pre ++ [req]) ∧
      (Psy.requestLoop split repoPath runErr requests).handled ≤ pre.length + 1) := by
  refine ⟨?_, ?_, ?_, ?_, ?_, ?_⟩
  · exact rangeRequests_countP_le_one _ _
      (fun i req => (prey_step_counts split repoPath i req).2.1)
      (fun i req => (prey_step_counts split repoPath i req).2.2) requests 0
  · have h0 : (Prey.requestLoop split repoPath requests).events.countP Event.isRun = 0 :=
      rangeRequests_countP_zero _ _
        (fun i req => (prey_step_counts split repoPath i req).1) requests 0
    rw [h0]
    exact Nat.zero_le 1
  · exact rangeRequests_countP_eq _ _ _
      (fun i req => (psy_step_counts split repoPath (runErr i) i req).1) requests 0
  · exact rangeRequests_countP_le_one _ _
      (fun i req => (psy_step_counts split repoPath (runErr i) i req).2.1)
      (fun i req => (psy_step_counts split repoPath (runErr i) i req).2.2) requests 0
  · intro pre post req hreq hterm
    subst hreq
    have hflow : (Prey.handleRequest split repoPath (0 + pre.length) req).flow ≠ .next := by
      rcases hterm with h | ⟨hT, hL, name, repoId, more, hS, hN⟩
      · rw [prey_flow_of_non_exec split repoPath _ req h]; decide
      · rw [prey_flow_of_dispatch split repoPath _ req name repoId more hT hL hS hN]; decide
    exact rangeRequests_stop_handled
      (fun j r => Prey.handleRequest split repoPath j r) pre 0 req post hflow
  · intro pre post req hreq hterm
    subst hreq
    have hflow : (Psy.handleRequest split repoPath (runErr (0 + pre.length)) (0 + pre.length)
        req).flow ≠ .next := by
      rcases hterm with h | ⟨hT, hL, hR, name, repoId, more, hS, hN⟩
      · rw [psy_flow_of_non_exec split repoPath _ _ req h]; decide
      · rw [Nat.zero_add, hR,
          psy_flow_of_dispatch split repoPath _ req name repoId more hT hL hS hN]
        decide
    exact rangeRequests_stop_handled
      (fun j r => Psy.handleRequest split repoPath (runErr j) j r) pre 0 req post hflow

theorem channel_single_shot_witness :
    (Prey.requestLoop shlexSplit "./repositories"
        [⟨"exec", true, execPayload "ls repoA"⟩,
          ⟨"exec", true, execPayload "git-upload-pack repoA"⟩, ⟨"shell", true, []⟩] =
      Prey.requestLoop shlexSplit "./repositories"
        ([⟨"exec", true, execPayload "ls repoA"⟩] ++
          [⟨"exec", true, execPayload "git-upload-pack repoA"⟩]) ∧
      (Prey.requestLoop shlexSplit "./repositories"
        [⟨"exec", true, execPayload "ls repoA"⟩,
          ⟨"exec", true, execPayload "git-upload-pack repoA"⟩,
          ⟨"shell", true, []⟩]).handled ≤ [(⟨"exec", true, execPayload "ls repoA"⟩ :
            Request)].length + 1) ∧
    (Psy.requestLoop shlexSplit "./repositories" (fun _ => none)
        [⟨"exec", true, execPayload "ls repoA"⟩,
          ⟨"exec", true, execPayload "git-upload-pack repoA"⟩, ⟨"shell", true, []⟩] =
      Psy.requestLoop shlexSplit "./repositories" (fun _ => none)
        ([⟨"exec", true, execPayload "ls repoA"⟩] ++
          [⟨"exec", true, execPayload "git-upload-pack repoA"⟩]) ∧
      (Psy.requestLoop shlexSplit "./repositories" (fun _ => none)
        [⟨"exec", true, execPayload "ls repoA"⟩,
          ⟨"exec", true, execPayload "git-upload-pack repoA"⟩,
          ⟨"shell", true, []⟩]).handled ≤ [(⟨"exec", true, execPayload "ls repoA"⟩ :
            Request)].length + 1) :=
  ⟨(channel_single_shot shlexSplit "./repositories" (fun _ => none)
      [⟨"exec", true, execPayload "ls repoA"⟩,
        ⟨"exec", true, execPayload "git-upload-pack repoA"⟩, ⟨"shell", true, []⟩]).2.2.2.2.1
      [⟨"exec", true, execPayload "ls repoA"⟩] [⟨"shell", true, []⟩]
      ⟨"exec", true, execPayload "git-upload-pack repoA"⟩ rfl
      (Or.inr ⟨by decide, by decide, "git-upload-pack", "repoA", [], by decide, by decide⟩),
    (channel_single_shot shlexSplit "./repositories" (fun _ => none)
      [⟨"exec", true, execPayload "ls repoA"⟩,
        ⟨"exec", true, execPayload "git-upload-pack repoA"⟩, ⟨"shell", true, []⟩]).2.2.2.2.2
      [⟨"exec", true, execPayload "ls repoA"⟩] [⟨"shell", true, []⟩]
      ⟨"exec", true, execPayload "git-upload-pack repoA"⟩ rfl
      (Or.inr ⟨by decide, by decide, rfl, "git-upload-pack", "repoA", [], by decide,
        by decide⟩)⟩

/-! ## Defects of the dispatch path -/

/-- C4 (defect of prey-serve): the calls `cmd.Run()` and `cmd.Start()` are
commented out, so no request loop of prey-serve ever runs a delegate. For the
request `exec git-upload-pack repoA` the command is built (directory
`repositories/repoA`, the one argument `.`), `Reply(true)` is sent, and the
worker closes the channel without having started the process. -/
theorem prey_exec_never_runs_delegate :
    (∀ (split : Splitter) (repoPath : String) (requests : List Request),
      (Prey.requestLoop split repoPath requests).events.countP Event.isRun = 0) ∧
    Prey.worker shlexSplit "./repositories"
        ⟨"session", none, [⟨"exec", true, execPayload "git-upload-pack repoA"⟩],
          fun _ => none, none⟩ =
      ⟨[.accept, .reply 0 true, .log "REPLIED", .close,
        .log "CLOSING CHANNEL: %!s(<nil>)", .wgDone], false⟩ ∧
    (Prey.handleRequest shlexSplit "./repositories" 0
        ⟨"exec", true, execPayload "git-upload-pack repoA"⟩).cmd =
      some ⟨"git-upload-pack", ["git-upload-pack", "."], "repositories/repoA", some [],
        .channel, .channel, .osStderr⟩ := by
  refine ⟨?_, by decide, by decide⟩
  intro split repoPath requests
  exact rangeRequests_countP_zero _ _
    (fun i req => (prey_step_counts split repoPath i req).1) requests 0

/-- C9 (defect of both programs): an `exec` request whose payload is shorter
than the 4-byte length field makes the slice expression `req.Payload[4:]`
panic: no `Reply` is made on the request, and the worker of a channel whose
first request is such a request ends in the panic, which ends the server. -/
theorem short_exec_payload_panics (split : Splitter) (repoPath : String)
    (runErr : Nat → Option String) (closeErr : Option String) (i : Nat) (req : Request)
    (rest : List Request)
    (hType : req.type = "exec") (hLen : req.payload.length < 4) :
    Psy.handleRequest split repoPath (runErr i) i req = ⟨[], .fault, none⟩ ∧
    Prey.handleRequest split repoPath i req = ⟨[], .fault, none⟩ ∧
    (Psy.worker split repoPath ⟨"session", none, req :: rest, runErr, closeErr⟩).crashed
      = true ∧
    (Prey.worker split repoPath ⟨"session", none, req :: rest, runErr, closeErr⟩).crashed
      = true := by
  have hPsy : ∀ e, Psy.handleRequest split repoPath e i req = ⟨[], .fault, none⟩ := by
    intro e
    simp [Psy.handleRequest, hType, sliceFrom_of_lt _ _ hLen]
  have hPrey : Prey.handleRequest split repoPath i req = ⟨[], .fault, none⟩ := by
    simp [Prey.handleRequest, hType, sliceFrom_of_lt _ _ hLen]
  have hPsy0 : ∀ e, Psy.handleRequest split repoPath e 0 req = ⟨[], .fault, none⟩ := by
    intro e
    simp [Psy.handleRequest, hType, sliceFrom_of_lt _ _ hLen]
  have hPrey0 : Prey.handleRequest split repoPath 0 req = ⟨[], .fault, none⟩ := by
    simp [Prey.handleRequest, hType, sliceFrom_of_lt _ _ hLen]
  refine ⟨hPsy _, hPrey, ?_, ?_⟩
  · have hloop : (Psy.requestLoop split repoPath runErr (req :: rest)).flow = .fault := by
      unfold Psy.requestLoop Psy.requestLoopFrom
      rw [rangeRequests_cons_stop _ 0 req rest (by simp [hPsy0]), hPsy0]
    simp [Psy.worker, hloop]
  · have hloop : (Prey.requestLoop split repoPath (req :: rest)).flow = .fault := by
      unfold Prey.requestLoop Prey.requestLoopFrom
      rw [rangeRequests_cons_stop _ 0 req rest (by simp [hPrey0]), hPrey0]
    simp [Prey.worker, hloop]

theorem short_exec_payload_panics_witness :
    Psy.handleRequest shlexSplit "./repositories" none 0 ⟨"exec", true, [0, 0]⟩ =
      ⟨[], .fault, none⟩ ∧
    Prey.handleRequest shlexSplit "./repositories" 0 ⟨"exec", true, [0, 0]⟩ =
      ⟨[], .fault, none⟩ ∧
    (Psy.worker shlexSplit "./repositories"
      ⟨"session", none, [⟨"exec", true, [0, 0]⟩], fun _ => none, none⟩).crashed = true ∧
    (Prey.worker shlexSplit "./repositories"
      ⟨"session", none, [⟨"exec", true, [0, 0]⟩], fun _ => none, none⟩).crashed = true :=
  short_exec_payload_panics shlexSplit "./repositories" (fun _ => none) none 0
    ⟨"exec", true, [0, 0]⟩ [] (by decide) (by decide)

/-- C10 (defect of psy-serve): when `cmd.Run()` fails for a dispatched `exec`
request, the request is answered twice: `Reply(true)` before the run and
`Reply(false)` after it. -/
theorem psy_failed_run_replies_twice (split : Splitter) (repoPath : String) (err : String)
    (i : Nat) (req : Request) (name repoId : String) (more : List String)
    (hType : req.type = "exec") (hLen : 4 ≤ req.payload.length)
    (hSplit : split (req.payload.drop 4) = some (name :: repoId :: more))
    (hName : name ∈ allowed) :
    (Psy.handleRequest split repoPath (some err) i req).events.filter (Event.isReplyTo i) =
      [.reply i true, .reply i false] := by
  have hl : ¬ (more.length + 1 + 1 < 2) := by omega
  simp [Psy.handleRequest, hType, sliceFrom_of_le _ _ hLen, hSplit, hName, hl,
    Event.isReplyTo, List.filter]

theorem psy_failed_run_replies_twice_witness :
    (Psy.handleRequest shlexSplit "./repositories" (some "exit status 128") 0
        ⟨"exec", true, execPayload "git-upload-pack repoA"⟩).events.filter
        (Event.isReplyTo 0) = [.reply 0 true, .reply 0 false] :=
  psy_failed_run_replies_twice shlexSplit "./repositories" "exit status 128" 0
    ⟨"exec", true, execPayload "git-upload-pack repoA"⟩ "git-upload-pack" "repoA" []
    (by decide) (by decide) (by decide) (by decide)

/-! ## Channels of another type than `session` -/

/-- C8, as stated, fails on the wait group: `wg.Add(1)` is called for every
incoming channel before its type is looked at, so a rejected channel is
counted too. -/
theorem rejected_channel_is_counted :
    (Psy.handleChannels shlexSplit "./repositories"
        [⟨"direct-tcpip", none, [], fun _ => none, none⟩]).map
        (fun t => wgAdded t.parent) = [1] ∧
    (Prey.handleChannels shlexSplit "./repositories"
        [⟨"direct-tcpip", none, [], fun _ => none, none⟩]).map
        (fun t => wgAdded t.parent) = [1] := by
  decide

/-- C8, amended: in psy-serve and in prey-serve, for every incoming channel
whose type is not `session`, the loop calls `wg.Add(1)` and the goroutine
makes exactly two calls, `Reject(UnknownChannelType, "unsupported channel
type")` and the deferred `wg.Done()`: the channel is never accepted, none of
its requests is read, and the wait group counts it until the rejection is
done. -/
theorem non_session_channel_rejected (split : Splitter) (repoPath : String)
    (channels : List NewChannel) (k : Nat) (ch : NewChannel)
    (hk : channels[k]? = some ch) (hType : ch.channelType ≠ "session") :
    (Psy.handleChannels split repoPath channels)[k]? =
      some ⟨[.wgAdd 1],
        ⟨[.reject .UnknownChannelType "unsupported channel type", .wgDone], false⟩⟩ ∧
    (Prey.handleChannels split repoPath channels)[k]? =
      some ⟨[.wgAdd 1],
        ⟨[.reject .UnknownChannelType "unsupported channel type", .wgDone], false⟩⟩ := by
  constructor
  · simp [Psy.handleChannels, hk, Psy.worker, hType]
  · simp [Prey.handleChannels, hk, Prey.worker, hType]

theorem non_session_channel_rejected_witness :
    (Psy.handleChannels shlexSplit "./repositories"
        [⟨"session", none, [], fun _ => none, none⟩,
          ⟨"direct-tcpip", none, [⟨"exec", true, execPayload "git-upload-pack repoA"⟩],
            fun _ => none, none⟩])[1]? =
      some ⟨[.wgAdd 1],
        ⟨[.reject .UnknownChannelType "unsupported channel type", .wgDone], false⟩⟩ ∧
    (Prey.handleChannels shlexSplit "./repositories"
        [⟨"session", none, [], fun _ => none, none⟩,
          ⟨"direct-tcpip", none, [⟨"exec", true, execPayload "git-upload-pack repoA"⟩],
            fun _ => none, none⟩])[1]? =
      some ⟨[.wgAdd 1],
        ⟨[.reject .UnknownChannelType "unsupported channel type", .wgDone], false⟩⟩ :=
  non_session_channel_rejected shlexSplit "./repositories"
    [⟨"session", none, [], fun _ => none, none⟩,
      ⟨"direct-tcpip", none, [⟨"exec", true, execPayload "git-upload-pack repoA"⟩],
        fun _ => none, none⟩] 1
    ⟨"direct-tcpip", none, [⟨"exec", true, execPayload "git-upload-pack repoA"⟩],
      fun _ => none, none⟩ rfl (by decide)

/-! ## The path handed to the delegate -/

theorem cleanLoop_nil (rooted : Bool) (fuel : Nat) (out : List Char) (dotdot : Nat) :
    cleanLoop rooted fuel [] out dotdot = out := by
  cases fuel <;> simp [cleanLoop]

theorem cleanLoop_sep (rooted : Bool) (fuel : Nat) (rest out : List Char) (dotdot : Nat) :
    cleanLoop rooted (fuel + 1) ('/' :: rest) out dotdot = cleanLoop rooted fuel rest out dotdot := by
  simp [cleanLoop, IsPathSeparator]

theorem takeWhile_elem (e tail : List Char)
    (he : e.all (fun c => !IsPathSeparator c) = true) (ht : atElemEnd tail = true) :
    (e ++ tail).takeWhile (fun x => !IsPathSeparator x) = e ∧
    (e ++ tail).dropWhile (fun x => !IsPathSeparator x) = tail := by
  induction e with
  | nil =>
    cases tail with
    | nil => simp
    | cons t ts =>
      simp only [atElemEnd] at ht
      simp [List.takeWhile, List.dropWhile, ht]
  | cons c e ih =>
    simp only [List.all_cons, Bool.and_eq_true] at he
    obtain ⟨hc, he⟩ := he
    obtain ⟨h1, h2⟩ := ih he
    rw [List.cons_append, List.takeWhile_cons, List.dropWhile_cons]
    simp only [hc, if_true]
    exact ⟨by rw [h1], h2⟩

theorem cleanLoop_elem (fuel : Nat) (e tail out : List Char)
    (he : isOrdinaryElem e = true) (ht : atElemEnd tail = true) :
    cleanLoop false (fuel + 1) (e ++ tail) out 0 =
      cleanLoop false fuel tail (e.reverse ++ (if out.length != 0 then '/' :: out else out))
        0 := by
  simp only [isOrdinaryElem, Bool.and_eq_true] at he
  obtain ⟨⟨⟨hne, hall⟩, hdot⟩, hdotdot⟩ := he
  obtain ⟨hT, hD⟩ := takeWhile_elem e tail hall ht
  cases e with
  | nil => simp at hne
  | cons c e1 =>
    have hc : IsPathSeparator c = false := by
      simp only [List.all_cons, Bool.and_eq_true] at hall
      simpa using hall.1
    have h2 : (c == '.' && atElemEnd (e1 ++ tail)) = false := by
      by_cases hcd : c = '.'
      · subst hcd
        cases e1 with
        | nil => simp at hdot
        | cons d e2 =>
          simp only [List.all_cons, Bool.and_eq_true] at hall
          have hd : IsPathSeparator d = false := by simpa using hall.2.1
          simp [atElemEnd, hd]
      · simp [hcd]
    have h3 : (c == '.' && (e1 ++ tail).head? == some '.' && atElemEnd (e1 ++ tail).tail)
        = false := by
      by_cases hcd : c = '.'
      · subst hcd
        cases e1 with
        | nil => simp at hdot
        | cons d e2 =>
          by_cases hdd : d = '.'
          · subst hdd
            cases e2 with
            | nil => simp at hdotdot
            | cons f e3 =>
              simp only [List.all_cons, Bool.and_eq_true] at hall
              have hf : IsPathSeparator f = false := by simpa using hall.2.2.1
              simp [atElemEnd, hf]
          · simp [hdd]
      · simp [hcd]
    rw [List.cons_append, cleanLoop]
    simp only [hc, h2, h3, Bool.false_eq_true, if_false]
    rw [← List.cons_append, hT, hD]
    simp

theorem isOrdinaryElem_length (e : List Char) (he : isOrdinaryElem e = true) :
    1 ≤ e.length := by
  cases e with
  | nil => simp [isOrdinaryElem] at he
  | cons c e1 => simp

theorem atElemEnd_joinElems_head (e : List Char) (es : List (List Char))
    (he : isOrdinaryElem e = true) :
    ∃ c rest, joinElems (e :: es) = c :: rest ∧ IsPathSeparator c = false := by
  simp only [isOrdinaryElem, Bool.and_eq_true] at he
  obtain ⟨⟨⟨hne, hall⟩, _⟩, _⟩ := he
  cases e with
  | nil => simp at hne
  | cons c e1 =>
    have hc : IsPathSeparator c = false := by
      simp only [List.all_cons, Bool.and_eq_true] at hall
      simpa using hall.1
    cases es with
    | nil => exact ⟨c, e1, by simp [joinElems], hc⟩
    | cons e2 es2 => exact ⟨c, e1 ++ '/' :: joinElems (e2 :: es2), by simp [joinElems], hc⟩

/-- On a path made of ordinary elements the loop of `Clean` copies the path:
nothing is dropped and nothing is resolved. -/
theorem cleanLoop_ordinary (es : List (List Char)) :
    ∀ (fuel : Nat) (out : List Char), es ≠ [] →
      (∀ e ∈ es, isOrdinaryElem e = true) → (joinElems es).length ≤ fuel →
      cleanLoop false fuel (joinElems es) out 0 =
        (joinElems es).reverse ++ (if out.length != 0 then '/' :: out else out) := by
  induction es with
  | nil => intro fuel out h; exact absurd rfl h
  | cons e es ih =>
    intro fuel out _ hall hfuel
    have he : isOrdinaryElem e = true := hall e (List.mem_cons_self _ _)
    have hlen := isOrdinaryElem_length e he
    cases es with
    | nil =>
      simp only [joinElems] at hfuel ⊢
      obtain ⟨f, rfl⟩ : ∃ f, fuel = f + 1 := ⟨fuel - 1, by omega⟩
      have h := cleanLoop_elem f e [] out he rfl
      rw [List.append_nil] at h
      rw [h, cleanLoop_nil]
    | cons e2 es2 =>
      simp only [joinElems, List.length_append, List.length_cons] at hfuel
      obtain ⟨f, rfl⟩ : ∃ f, fuel = f + 2 := ⟨fuel - 2, by omega⟩
      have hall2 : ∀ x ∈ e2 :: es2, isOrdinaryElem x = true :=
        fun x hx => hall x (List.mem_cons_of_mem _ hx)
      have hstep : joinElems (e :: e2 :: es2) = e ++ '/' :: joinElems (e2 :: es2) := by
        simp [joinElems]
      rw [hstep, cleanLoop_elem (f + 1) e ('/' :: joinElems (e2 :: es2)) out he rfl,
        cleanLoop_sep, ih f _ (by simp) hall2 (by omega)]
      have hne : ((e.reverse ++ (if out.length != 0 then '/' :: out else out)).length != 0)
          = true := by
        simp only [List.length_append, List.length_reverse, bne_iff_ne]
        omega
      rw [if_pos hne]
      simp

/-- Cleaning leaves a path made of ordinary elements as it is. -/
theorem Clean_ordinary (es : List (List Char)) (hne : es ≠ [])
    (hall : ∀ e ∈ es, isOrdinaryElem e = true) :
    Clean (String.mk (joinElems es)) = String.mk (joinElems es) := by
  cases es with
  | nil => exact absurd rfl hne
  | cons e es1 =>
    obtain ⟨c, rest, hj, hc⟩ := atElemEnd_joinElems_head e es1 (hall e (List.mem_cons_self _ _))
    have hloop := cleanLoop_ordinary (e :: es1) (joinElems (e :: es1)).length [] hne hall
      (Nat.le_refl _)
    rw [hj] at hloop
    unfold Clean
    simp only [hj, hc]
    simp only [Bool.false_eq_true, if_false]
    rw [hloop]
    simp

theorem joinElems_append (es1 es2 : List (List Char)) (h1 : es1 ≠ []) (h2 : es2 ≠ []) :
    joinElems (es1 ++ es2) = joinElems es1 ++ '/' :: joinElems es2 := by
  induction es1 with
  | nil => exact absurd rfl h1
  | cons e es ih =>
    cases es with
    | nil =>
      cases es2 with
      | nil => exact absurd rfl h2
      | cons e2 es3 => simp [joinElems]
    | cons e1 es1 =>
      have := ih (by simp)
      simp only [List.cons_append] at this ⊢
      simp only [joinElems, this, List.append_assoc, List.cons_append]

theorem Join_pair_of_ne (root id : String) (h : root ≠ "") :
    Join [root, id] = Clean (root ++ "/" ++ id) := by
  simp [Join, h, String.intercalate, String.intercalate.go]

theorem Join_pair_of_empty (id : String) :
    Join ["", id] = if id = "" then "" else Clean id := by
  by_cases h : id = ""
  · simp [Join, h]
  · simp [Join, h, String.intercalate, String.intercalate.go]

theorem joinElems_ne_nil (es : List (List Char)) (hne : es ≠ [])
    (hall : ∀ e ∈ es, isOrdinaryElem e = true) : joinElems es ≠ [] := by
  cases es with
  | nil => exact absurd rfl hne
  | cons e es1 =>
    obtain ⟨c, rest, hj, _⟩ := atElemEnd_joinElems_head e es1 (hall e (List.mem_cons_self _ _))
    rw [hj]; simp

/-- For a root and an identifier made of ordinary elements, `filepath.Join`
is the root, one separator, and the identifier. -/
theorem Join_ordinary (es1 es2 : List (List Char)) (h1 : es1 ≠ []) (h2 : es2 ≠ [])
    (hall1 : ∀ e ∈ es1, isOrdinaryElem e = true) (hall2 : ∀ e ∈ es2, isOrdinaryElem e = true) :
    Join [String.mk (joinElems es1), String.mk (joinElems es2)] =
      String.mk (joinElems es1) ++ "/" ++ String.mk (joinElems es2) := by
  have hroot : String.mk (joinElems es1) ≠ "" := by
    intro h
    have := congrArg String.data h
    exact joinElems_ne_nil es1 h1 hall1 this
  rw [Join_pair_of_ne _ _ hroot]
  have e : String.mk (joinElems es1) ++ "/" ++ String.mk (joinElems es2) =
      String.mk (joinElems (es1 ++ es2)) := by
    rw [joinElems_append es1 es2 h1 h2]
    apply String.ext
    simp
  rw [e]
  apply Clean_ordinary
  · simp [h1]
  · intro x hx
    rcases List.mem_append.mp hx with h | h
    · exact hall1 x h
    · exact hall2 x h

theorem cleanLoop_dot (rooted : Bool) (fuel : Nat) (rest out : List Char) (dotdot : Nat)
    (h : atElemEnd rest = true) :
    cleanLoop rooted (fuel + 1) ('.' :: rest) out dotdot =
      cleanLoop rooted fuel rest out dotdot := by
  rw [cleanLoop]
  simp [IsPathSeparator, h]

/-- For the configured root `./repositories` and an identifier made of
ordinary elements, `filepath.Join` drops the leading `./` of the root. -/
theorem Join_configured (es : List (List Char)) (hne : es ≠ [])
    (hall : ∀ e ∈ es, isOrdinaryElem e = true) :
    Join [configuredRepoPath, String.mk (joinElems es)] =
      "repositories/" ++ String.mk (joinElems es) := by
  have hroot : configuredRepoPath ≠ "" := by decide
  rw [Join_pair_of_ne _ _ hroot]
  have hall2 : ∀ e ∈ "repositories".data :: es, isOrdinaryElem e = true := by
    intro e he
    rcases List.mem_cons.mp he with h | h
    · subst h; decide
    · exact hall e h
  have hj : joinElems ("repositories".data :: es) =
      "repositories".data ++ '/' :: joinElems es := by
    cases es with
    | nil => exact absurd rfl hne
    | cons e es1 => simp [joinElems]
  have e1 : configuredRepoPath ++ "/" ++ String.mk (joinElems es) =
      String.mk ('.' :: '/' :: joinElems ("repositories".data :: es)) := by
    rw [hj]
    apply String.ext
    simp [configuredRepoPath]
  have e2 : "repositories/" ++ String.mk (joinElems es) =
      String.mk (joinElems ("repositories".data :: es)) := by
    rw [hj]
    apply String.ext
    simp
  have hloop := cleanLoop_ordinary ("repositories".data :: es)
    (joinElems ("repositories".data :: es)).length [] (by simp) hall2 (Nat.le_refl _)
  have hnil : joinElems ("repositories".data :: es) ≠ [] :=
    joinElems_ne_nil _ (by simp) hall2
  rw [e1, e2]
  unfold Clean
  simp only [IsPathSeparator, List.length_cons]
  have hd : (('.' : Char) == '/') = false := by decide
  simp only [hd, Bool.false_eq_true, if_false]
  rw [cleanLoop_dot false _ ('/' :: joinElems ("repositories".data :: es)) _ _ rfl,
    cleanLoop_sep, hloop]
  simp [hnil]

theorem dropWhile_length_le (p : Char → Bool) (l : List Char) :
    (l.dropWhile p).length ≤ l.length := by
  induction l with
  | nil => simp
  | cons a l ih =>
    rw [List.dropWhile_cons]
    split
    · simp only [List.length_cons]; omega
    · exact Nat.le_refl _

/-- The length of the unread path is enough fuel for the loop of `Clean`:
more fuel gives the same buffer. -/
theorem cleanLoop_fuel (rooted : Bool) (fuel : Nat) :
    ∀ (rest out : List Char) (dotdot : Nat), rest.length ≤ fuel →
      cleanLoop rooted fuel rest out dotdot =
        cleanLoop rooted rest.length rest out dotdot := by
  induction fuel using Nat.strong_induction_on with
  | _ fuel ih =>
    intro rest out dotdot hle
    cases rest with
    | nil => rw [cleanLoop_nil, cleanLoop_nil]
    | cons c r =>
      simp only [List.length_cons] at hle
      obtain ⟨f, rfl⟩ : ∃ f, fuel = f + 1 := ⟨fuel - 1, by omega⟩
      have key : ∀ (r1 o : List Char) (d : Nat), r1.length ≤ r.length →
          cleanLoop rooted f r1 o d = cleanLoop rooted r.length r1 o d := by
        intro r1 o d h
        rw [ih f (by omega) r1 o d (by omega), ih r.length (by omega) r1 o d h]
      have htail : r.tail.length ≤ r.length := by simp
      simp only [List.length_cons, cleanLoop]
      have hdrop : IsPathSeparator c = false →
          ((c :: r).dropWhile (fun x => !IsPathSeparator x)).length ≤ r.length := by
        intro hc
        rw [List.dropWhile_cons]
        simp only [hc, Bool.not_false, if_true]
        exact dropWhile_length_le _ r
      split_ifs with h1
      all_goals first
        | exact key _ _ _ (Nat.le_refl _)
        | exact key _ _ _ htail
        | exact key _ _ _ (hdrop (by simpa using h1))

/-- C7, as stated, fails: `filepath.Join` cleans its result. For the
configured root `./repositories` and the identifier `../../etc` the delegate
of psy-serve gets the argument `../etc`, and the command of prey-serve the
directory `../etc`, not `./repositories/../../etc`. -/
theorem repository_path_not_verbatim :
    (Psy.handleRequest shlexSplit configuredRepoPath none 0
        ⟨"exec", true, execPayload "git-upload-pack ../../etc"⟩).cmd.map (fun c => c.args) =
      some ["git-upload-pack", "../etc"] ∧
    (Prey.handleRequest shlexSplit configuredRepoPath 0
        ⟨"exec", true, execPayload "git-upload-pack ../../etc"⟩).cmd.map (fun c => c.dir) =
      some "../etc" ∧
    "../etc" ≠ configuredRepoPath ++ "/" ++ "../../etc" := by
  decide

/-- C7, amended: for every repository root and every identifier (the second
token of a whitelisted command), the path handed to the delegate, as the one
argument in psy-serve and as the working directory in prey-serve, is
`filepath.Join(root, id)`. For a non-empty root this is `filepath.Clean` of the
root, one separator and the identifier. It is the root, one separator and the
identifier unchanged when both are made of ordinary elements (not empty,
neither `.` nor `..`) separated by single separators; for the configured root
`./repositories` and such an identifier it is `repositories/` followed by the
identifier. -/
theorem repository_path_is_joined (split : Splitter) (repoPath : String)
    (runErr : Option String) (i : Nat) (req : Request) (name repoId : String)
    (more : List String)
    (hType : req.type = "exec") (hLen : 4 ≤ req.payload.length)
    (hSplit : split (req.payload.drop 4) = some (name :: repoId :: more))
    (hName : name ∈ allowed) :
    (Psy.handleRequest split repoPath runErr i req).cmd.map (fun c => c.args) =
      some [name, Join [repoPath, repoId]] ∧
    (Prey.handleRequest split repoPath i req).cmd.map (fun c => (c.dir, c.args)) =
      some (Join [repoPath, repoId], [name, "."]) ∧
    (repoPath ≠ "" → Join [repoPath, repoId] = Clean (repoPath ++ "/" ++ repoId)) ∧
    (∀ es1 es2 : List (List Char), es1 ≠ [] → es2 ≠ [] →
      (∀ e ∈ es1, isOrdinaryElem e = true) → (∀ e ∈ es2, isOrdinaryElem e = true) →
      repoPath = String.mk (joinElems es1) → repoId = String.mk (joinElems es2) →
      Join [repoPath, repoId] = repoPath ++ "/" ++ repoId) ∧
    (∀ es2 : List (List Char), es2 ≠ [] → (∀ e ∈ es2, isOrdinaryElem e = true) →
      repoPath = configuredRepoPath → repoId = String.mk (joinElems es2) →
      Join [repoPath, repoId] = "repositories/" ++ repoId) := by
  have hl : ¬ (more.length + 1 + 1 < 2) := by omega
  refine ⟨?_, ?_, ?_, ?_, ?_⟩
  · cases runErr <;>
      simp [Psy.handleRequest, hType, sliceFrom_of_le _ _ hLen, hSplit, hName, hl]
  · simp [Prey.handleRequest, hType, sliceFrom_of_le _ _ hLen, hSplit, hName, hl]
  · intro h
    exact Join_pair_of_ne repoPath repoId h
  · intro es1 es2 h1 h2 hall1 hall2 hr hi
    subst hr; subst hi
    exact Join_ordinary es1 es2 h1 h2 hall1 hall2
  · intro es2 h2 hall2 hr hi
    subst hr; subst hi
    exact Join_configured es2 h2 hall2

theorem repository_path_is_joined_witness :
    ((Psy.handleRequest shlexSplit "repositories" none 0
        ⟨"exec", true, execPayload "git-upload-pack repoA"⟩).cmd.map (fun c => c.args) =
      some ["git-upload-pack", Join ["repositories", "repoA"]] ∧
    (Prey.handleRequest shlexSplit "repositories" 0
        ⟨"exec", true, execPayload "git-upload-pack repoA"⟩).cmd.map
        (fun c => (c.dir, c.args)) =
      some (Join ["repositories", "repoA"], ["git-upload-pack", "."]) ∧
    Join ["repositories", "repoA"] = Clean ("repositories" ++ "/" ++ "repoA") ∧
    Join ["repositories", "repoA"] = "repositories" ++ "/" ++ "repoA") ∧
    Join [configuredRepoPath, "repoA"] = "repositories/" ++ "repoA" :=
  ⟨⟨(repository_path_is_joined shlexSplit "repositories" none 0
        ⟨"exec", true, execPayload "git-upload-pack repoA"⟩ "git-upload-pack" "repoA" []
        (by decide) (by decide) (by decide) (by decide)).1,
      (repository_path_is_joined shlexSplit "repositories" none 0
        ⟨"exec", true, execPayload "git-upload-pack repoA"⟩ "git-upload-pack" "repoA" []
        (by decide) (by decide) (by decide) (by decide)).2.1,
      (repository_path_is_joined shlexSplit "repositories" none 0
        ⟨"exec", true, execPayload "git-upload-pack repoA"⟩ "git-upload-pack" "repoA" []
        (by decide) (by decide) (by decide) (by decide)).2.2.1 (by decide),
      (repository_path_is_joined shlexSplit "repositories" none 0
        ⟨"exec", true, execPayload "git-upload-pack repoA"⟩ "git-upload-pack" "repoA" []
        (by decide) (by decide) (by decide) (by decide)).2.2.2.1
        ["repositories".data] ["repoA".data] (by decide) (by decide) (by decide) (by decide)
        rfl rfl⟩,
    (repository_path_is_joined shlexSplit configuredRepoPath none 0
      ⟨"exec", true, execPayload "git-upload-pack repoA"⟩ "git-upload-pack" "repoA" []
      (by decide) (by decide) (by decide) (by decide)).2.2.2.2
      ["repoA".data] (by decide) (by decide) rfl rfl⟩

/-! ## Dispatched requests -/

/-- C3: in psy-serve, an `exec` request whose first token is in the whitelist
and that has a second token makes these calls in this order: `Reply(true)`,
then `cmd.Run()` of the command named by the first token, whose one argument
is `filepath.Join(repoPath, repoId)`, with the empty environment and with
stdin and stdout bound to the channel; when `Run` returns no error,
`SendRequest("exit-status", false, [0,0,0,0])` follows, once, the iteration
returns and the loop ends with this request. The joined path is, for a
non-empty root, `filepath.Clean` of the root, one separator and the
identifier: the root, one separator and the identifier themselves when both
are made of ordinary elements, and `repositories/` followed by the identifier
for the configured root `./repositories` and such an identifier. -/
theorem psy_exec_dispatch_order (split : Splitter) (repoPath : String)
    (runErr : Nat → Option String) (i : Nat) (req : Request) (rest : List Request)
    (name repoId : String) (more : List String)
    (hType : req.type = "exec") (hLen : 4 ≤ req.payload.length)
    (hSplit : split (req.payload.drop 4) = some (name :: repoId :: more))
    (hName : name = "git-upload-pack" ∨ name = "git-upload-archive" ∨
      name = "git-receive-pack") :
    (Psy.handleRequest split repoPath (runErr i) i req).events.take 3 =
      [.reply i true, .log repoId,
        .run ⟨name, [name, Join [repoPath, repoId]], "", some [], .channel, .channel, .osStderr⟩
          (runErr i).isNone] ∧
    (runErr i = none →
      Psy.handleRequest split repoPath (runErr i) i req =
        ⟨[.reply i true, .log repoId,
          .run ⟨name, [name, Join [repoPath, repoId]], "", some [], .channel, .channel,
            .osStderr⟩ true,
          .sendRequest "exit-status" false [0, 0, 0, 0]], .ret,
          some ⟨name, [name, Join [repoPath, repoId]], "", some [], .channel, .channel,
            .osStderr⟩⟩ ∧
      Psy.requestLoopFrom split repoPath runErr i (req :: rest) =
        ⟨[.reply i true, .log repoId,
          .run ⟨name, [name, Join [repoPath, repoId]], "", some [], .channel, .channel,
            .osStderr⟩ true,
          .sendRequest "exit-status" false [0, 0, 0, 0]], .ret, 1⟩) ∧
    (repoPath ≠ "" → Join [repoPath, repoId] = Clean (repoPath ++ "/" ++ repoId)) ∧
    (∀ es1 es2 : List (List Char), es1 ≠ [] → es2 ≠ [] →
      (∀ e ∈ es1, isOrdinaryElem e = true) → (∀ e ∈ es2, isOrdinaryElem e = true) →
      repoPath = String.mk (joinElems es1) → repoId = String.mk (joinElems es2) →
      (Psy.handleRequest split repoPath (runErr i) i req).events.take 3 =
        [.reply i true, .log repoId,
          .run ⟨name, [name, repoPath ++ "/" ++ repoId], "", some [], .channel, .channel,
            .osStderr⟩ (runErr i).isNone]) ∧
    (∀ es2 : List (List Char), es2 ≠ [] → (∀ e ∈ es2, isOrdinaryElem e = true) →
      repoPath = configuredRepoPath → repoId = String.mk (joinElems es2) →
      (Psy.handleRequest split repoPath (runErr i) i req).events.take 3 =
        [.reply i true, .log repoId,
          .run ⟨name, [name, "repositories/" ++ repoId], "", some [], .channel, .channel,
            .osStderr⟩ (runErr i).isNone]) := by
  have hA : name ∈ allowed := by
    have h := allowed_of_eq name hName
    simpa using h
  have hl : ¬ (more.length + 1 + 1 < 2) := by omega
  have hTake : (Psy.handleRequest split repoPath (runErr i) i req).events.take 3 =
      [.reply i true, .log repoId,
        .run ⟨name, [name, Join [repoPath, repoId]], "", some [], .channel, .channel, .osStderr⟩
          (runErr i).isNone] := by
    cases hr : runErr i <;>
      simp [Psy.handleRequest, hType, sliceFrom_of_le _ _ hLen, hSplit, hA, hl]
  refine ⟨hTake, ?_, ?_, ?_, ?_⟩
  · intro hr
    have hStep : Psy.handleRequest split repoPath (runErr i) i req =
        ⟨[.reply i true, .log repoId,
          .run ⟨name, [name, Join [repoPath, repoId]], "", some [], .channel, .channel,
            .osStderr⟩ true,
          .sendRequest "exit-status" false [0, 0, 0, 0]], .ret,
          some ⟨name, [name, Join [repoPath, repoId]], "", some [], .channel, .channel,
            .osStderr⟩⟩ := by
      simp [Psy.handleRequest, hType, sliceFrom_of_le _ _ hLen, hSplit, hA, hr, hl]
    refine ⟨hStep, ?_⟩
    unfold Psy.requestLoopFrom
    rw [rangeRequests_cons_stop _ i req rest (by simp [hStep]), hStep]
  · intro h
    exact Join_pair_of_ne repoPath repoId h
  · intro es1 es2 h1 h2 hall1 hall2 hr hi
    rw [hTake]
    subst hr; subst hi
    rw [Join_ordinary es1 es2 h1 h2 hall1 hall2]
  · intro es2 h2 hall2 hr hi
    rw [hTake]
    subst hr; subst hi
    rw [Join_configured es2 h2 hall2]

theorem psy_exec_dispatch_order_witness :
    ((Psy.handleRequest shlexSplit configuredRepoPath none 0
        ⟨"exec", true, execPayload "git-upload-pack repoA"⟩).events.take 3 =
      [.reply 0 true, .log "repoA",
        .run ⟨"git-upload-pack", ["git-upload-pack", "repositories/repoA"], "",
          some [], .channel, .channel, .osStderr⟩ true] ∧
    Psy.handleRequest shlexSplit configuredRepoPath none 0
        ⟨"exec", true, execPayload "git-upload-pack repoA"⟩ =
      ⟨[.reply 0 true, .log "repoA",
        .run ⟨"git-upload-pack", ["git-upload-pack", "repositories/repoA"], "",
          some [], .channel, .channel, .osStderr⟩ true,
        .sendRequest "exit-status" false [0, 0, 0, 0]], .ret,
        some ⟨"git-upload-pack", ["git-upload-pack", "repositories/repoA"], "",
          some [], .channel, .channel, .osStderr⟩⟩ ∧
    Psy.requestLoopFrom shlexSplit configuredRepoPath (fun _ => none) 0
        [⟨"exec", true, execPayload "git-upload-pack repoA"⟩, ⟨"shell", true, []⟩] =
      ⟨[.reply 0 true, .log "repoA",
        .run ⟨"git-upload-pack", ["git-upload-pack", "repositories/repoA"], "",
          some [], .channel, .channel, .osStderr⟩ true,
        .sendRequest "exit-status" false [0, 0, 0, 0]], .ret, 1⟩ ∧
    Join [configuredRepoPath, "repoA"] = Clean (configuredRepoPath ++ "/" ++ "repoA") ∧
    (Psy.handleRequest shlexSplit configuredRepoPath none 0
        ⟨"exec", true, execPayload "git-upload-pack repoA"⟩).events.take 3 =
      [.reply 0 true, .log "repoA",
        .run ⟨"git-upload-pack", ["git-upload-pack", "repositories/" ++ "repoA"], "",
          some [], .channel, .channel, .osStderr⟩ (none : Option String).isNone]) ∧
    (Psy.handleRequest shlexSplit "repositories" none 0
        ⟨"exec", true, execPayload "git-upload-pack repoA"⟩).events.take 3 =
      [.reply 0 true, .log "repoA",
        .run ⟨"git-upload-pack", ["git-upload-pack", "repositories" ++ "/" ++ "repoA"], "",
          some [], .channel, .channel, .osStderr⟩ (none : Option String).isNone] :=
  ⟨⟨(psy_exec_dispatch_order shlexSplit configuredRepoPath (fun _ => none) 0
        ⟨"exec", true, execPayload "git-upload-pack repoA"⟩ [⟨"shell", true, []⟩]
        "git-upload-pack" "repoA" [] (by decide) (by decide) (by decide) (Or.inl rfl)).1,
      ((psy_exec_dispatch_order shlexSplit configuredRepoPath (fun _ => none) 0
        ⟨"exec", true, execPayload "git-upload-pack repoA"⟩ [⟨"shell", true, []⟩]
        "git-upload-pack" "repoA" [] (by decide) (by decide) (by decide)
        (Or.inl rfl)).2.1 rfl).1,
      ((psy_exec_dispatch_order shlexSplit configuredRepoPath (fun _ => none) 0
        ⟨"exec", true, execPayload "git-upload-pack repoA"⟩ [⟨"shell", true, []⟩]
        "git-upload-pack" "repoA" [] (by decide) (by decide) (by decide)
        (Or.inl rfl)).2.1 rfl).2,
      (psy_exec_dispatch_order shlexSplit configuredRepoPath (fun _ => none) 0
        ⟨"exec", true, execPayload "git-upload-pack repoA"⟩ [⟨"shell", true, []⟩]
        "git-upload-pack" "repoA" [] (by decide) (by decide) (by decide)
        (Or.inl rfl)).2.2.1 (by decide),
      (psy_exec_dispatch_order shlexSplit configuredRepoPath (fun _ => none) 0
        ⟨"exec", true, execPayload "git-upload-pack repoA"⟩ [⟨"shell", true, []⟩]
        "git-upload-pack" "repoA" [] (by decide) (by decide) (by decide)
        (Or.inl rfl)).2.2.2.2 ["repoA".data] (by decide) (by decide) rfl rfl⟩,
    (psy_exec_dispatch_order shlexSplit "repositories" (fun _ => none) 0
      ⟨"exec", true, execPayload "git-upload-pack repoA"⟩ [⟨"shell", true, []⟩]
      "git-upload-pack" "repoA" [] (by decide) (by decide) (by decide)
      (Or.inl rfl)).2.2.2.1 ["repositories".data] ["repoA".data] (by decide) (by decide)
      (by decide) (by decide) rfl rfl⟩

end ProjectSyncer
